import Mathlib

/-!
Verification development for the retailnext/sftp server (server.go).

Paths, handles and messages are modelled as `List Char` (Go strings are byte
strings; the repository only manipulates them with equality, prefix tests,
indexing past a prefix, and searches for '/').  File contents are `List Nat`
(byte values).  External filesystem results (os.Create, os.Mkdir, hook
results, ...) are supplied as explicit oracle values.  Machine integers that
matter (the uint64 write offset converted to int64) are modelled as Nat/Int
with explicit wrap-around modulo 2^64.
-/

abbrev Str := List Char

def strL (s : String) : Str := s.data

/-! ### Errno constants (syscall package values on linux) -/

def EPERM : Nat := 1
def ENOENT : Nat := 2
def EBADF : Nat := 9
def EFBIG : Nat := 27

/-! ### Status codes (the wire status space used by the server) -/

inductive Status where
  | ok
  | eof
  | noSuchFile
  | permissionDenied
  | failure
  | badMessage
  | noConnection
  | connectionLost
  | opUnsupported
  | noSuchPath
  | invalidFilename
deriving DecidableEq, Repr

/-! ### Go errors as they occur in this program

`ioEOF` is the io.EOF sentinel, `errno n` a syscall.Errno, `pathErr` an
*os.PathError wrapping an inner error, `other` any further error value
carrying only its message. -/

inductive GoErr where
  | ioEOF : GoErr
  | errno (n : Nat) : GoErr
  | pathErr (op p : Str) (inner : GoErr) : GoErr
  | other (msg : Str) : GoErr
deriving DecidableEq, Repr

/-- err.Error() for the errors above: io.EOF prints "EOF", a syscall.Errno
prints a non-empty description, an os.PathError prints "op: path: inner". -/
def errMsg : GoErr → Str
  | .ioEOF => strL "EOF"
  | .errno n => strL "errno " ++ Nat.toDigits 10 n
  | .pathErr op p inner => op ++ strL ": " ++ p ++ strL ": " ++ errMsg inner
  | .other m => m

/-- server.go translateErrno: switch on the errno value. -/
def translateErrno (errno : Nat) : Status :=
  if errno = 0 then .ok
  else if errno = ENOENT then .noSuchFile
  else if errno = EPERM then .permissionDenied
  else .failure

/-- server.go statusFromError, reduced to the (code, message) pair it puts in
the status packet (the packet id is just copied from the request). -/
def statusFromError : Option GoErr → Status × Str
  | none => (.ok, [])
  | some err =>
    let code :=
      match err with
      | .ioEOF => Status.eof
      | .errno n => translateErrno n
      | .pathErr _ _ (.errno n) => translateErrno n
      | _ => Status.failure
    (code, errMsg err)

/-! ### Packet payload pieces -/

/-- The pflags of an open request, one field per flag bit that the server
inspects (ssh_FXF_READ, ssh_FXF_WRITE, ssh_FXF_APPEND are distinct bits, so
hasPflags of a single constant is exactly one field here). -/
structure Pflags where
  read : Bool := false
  write : Bool := false
  append : Bool := false
deriving DecidableEq, Repr

/-- Result triple of the fileNameMapper hook: func(string) (string, bool, error). -/
structure MapResult where
  name : Str
  ok : Bool
  errored : Bool
deriving DecidableEq, Repr

/-- An open *os.File as this server observes it: its Name() and its bytes. -/
structure FileRes where
  name : Str
  content : List Nat
deriving DecidableEq, Repr

/-- server.go openDirInfo. -/
structure openDirInfo where
  name : Str
  read : Bool
deriving DecidableEq, Repr

/-- server.go Server: configuration options plus the open-handle tables.
Maps are association lists with the most recent insertion first; the
uploadNotifier, opendirHook and readdirHook options are recorded by presence
(their observable calls are returned as explicit event data). -/
structure Server where
  readOnly : Bool := false
  uploadPath : Str := ['/']
  fileSizeLimit : Int := 0
  fileNameMapper : Option (Str → MapResult) := none
  uploadNotifier : Bool := false
  opendirHook : Bool := false
  readdirHook : Bool := false
  openFiles : List (Str × FileRes) := []
  openDirs : List (Str × openDirInfo) := []
  handleCount : Nat := 0
  maxTxPacket : Nat := 32768

/-! ### Handle table -/

/-- Go map delete. -/
def eraseKey {β : Type} (k : Str) (l : List (Str × β)) : List (Str × β) :=
  l.filter (fun kv => !(kv.1 == k))

/-- server.go Server.nextHandle. -/
def nextHandle (svr : Server) (f : FileRes) (dirName : Str) : Server × Str :=
  let c := svr.handleCount + 1
  let handle := Nat.toDigits 10 c
  ({ svr with
      handleCount := c,
      openFiles := (handle, f) :: svr.openFiles,
      openDirs :=
        if dirName ≠ [] then (handle, ⟨dirName, false⟩) :: svr.openDirs
        else svr.openDirs },
   handle)

/-- server.go Server.closeHandle.  Returns the new server, the returned
error (f.Close() of the in-memory file model succeeds), and the list of
uploadNotifier invocations it performed. -/
def closeHandle (svr : Server) (handle : Str) : Server × Option GoErr × List Str :=
  match svr.openFiles.lookup handle with
  | some f =>
    let files' := eraseKey handle svr.openFiles
    let isDir := (svr.openDirs.lookup handle).isSome
    let dirs' := if isDir then eraseKey handle svr.openDirs else svr.openDirs
    let notes := if svr.uploadNotifier && !isDir then [f.name] else []
    ({ svr with openFiles := files', openDirs := dirs' }, none, notes)
  | none => (svr, some (.errno EBADF), [])

/-- server.go Server.getHandle. -/
def getHandle (svr : Server) (handle : Str) : Option FileRes :=
  svr.openFiles.lookup handle

/-- server.go Server.getHandleDirInfo. -/
def getHandleDirInfo (svr : Server) (handle : Str) : Option openDirInfo :=
  svr.openDirs.lookup handle

/-! ### path.Clean (Go standard library), segment formulation -/

/-- One step of path.Clean's ".." handling over the stack of kept segments. -/
def cleanStep (rooted : Bool) (stack : List Str) (seg : Str) : List Str :=
  if seg = ['.', '.'] then
    match stack with
    | [] => if rooted then [] else [seg]
    | top :: rest => if top = ['.', '.'] then seg :: stack else rest
  else seg :: stack

/-- Go path.Clean: drop empty and "." segments, resolve ".." against earlier
segments (at the root, ".." is dropped; in a relative path, leading ".."s are
kept), return "." for an empty result of a relative path. -/
def pathClean (p : Str) : Str :=
  if p = [] then ['.']
  else
    let rooted := p.head? == some '/'
    let segs := (p.splitOn '/').filter (fun seg => seg != [] && seg != ['.'])
    let stack := (segs.foldl (cleanStep rooted) []).reverse
    let body := List.intercalate ['/'] stack
    if rooted then '/' :: body
    else if body = [] then ['.'] else body

/-! ### Path virtualization -/

/-- server.go Server.isUploadDirOrAncestor. -/
def isUploadDirOrAncestor (s : Server) (dir : Str) : Bool :=
  if dir == s.uploadPath || dir == ['/'] then true
  else (dir ++ ['/']).isPrefixOf s.uploadPath

/-! ### int64 arithmetic for the write size check -/

/-- Two's-complement reinterpretation into int64 range. -/
def i64wrap (z : Int) : Int := (z + 2 ^ 63) % 2 ^ 64 - 2 ^ 63

/-- Go int64(v) for a uint64 value v. -/
def toInt64 (n : Nat) : Int := i64wrap n

/-- os.File.WriteAt semantics on the in-memory byte list: bytes [off, off+len)
become data, earlier bytes are kept, a gap beyond the old end reads as zero. -/
def writeAt (content : List Nat) (off : Nat) (data : List Nat) : List Nat :=
  let n := max content.length (off + data.length)
  (List.range n).map (fun i =>
    if off ≤ i ∧ i < off + data.length then data.getD (i - off) 0
    else content.getD i 0)

/-- Replace the content of the file registered under `handle`. -/
def updateContent (svr : Server) (handle : Str) (c : List Nat) : Server :=
  { svr with
      openFiles := svr.openFiles.map (fun kv =>
        if kv.1 == handle then (kv.1, { kv.2 with content := c }) else kv) }

/-- The sshFxpWritePacket case of server.go handlePacket: look up the handle;
if fileSizeLimit > 0 and int64(offset)+int64(len(data)) exceeds it (int64
arithmetic wraps), fail with EFBIG; otherwise f.WriteAt(data, int64(offset)),
which rejects a negative offset and otherwise writes. -/
def writeRespond (svr : Server) (handle : Str) (off : Nat) (data : List Nat) :
    Server × Option GoErr :=
  match svr.openFiles.lookup handle with
  | none => (svr, some (.errno EBADF))
  | some f =>
    let offI := toInt64 off
    if svr.fileSizeLimit > 0 ∧ svr.fileSizeLimit < i64wrap (offI + (data.length : Int)) then
      (svr, some (.errno EFBIG))
    else if offI < 0 then
      (svr, some (.pathErr (strL "writeat") f.name (.other (strL "negative offset"))))
    else
      (updateContent svr handle (writeAt f.content offI.toNat data), none)

/-! ### Responses -/

inductive Resp where
  | statusR (code : Status) (msg : Str)
  | handleR (handle : Str)
  | nameListR (names : List Str)
  | statR (name : Str)
  | versionR
  | dataR (data : List Nat)
deriving DecidableEq, Repr

/-- s.sendError(p, err): a status packet built by statusFromError. -/
def sendError (e : Option GoErr) : Resp :=
  .statusR (statusFromError e).1 (statusFromError e).2

/-- s.sendErrorCode(p, code): a status packet with the literal code. -/
def sendErrorCode (c : Status) : Resp := .statusR c []

/-! ### Open handler (sshFxpOpenPacket.respond) -/

/-- sshFxpOpenPacket.readonly(): true iff the write flag is absent. -/
def openPktReadonly (fl : Pflags) : Bool := !fl.write

/-- The prefix the open handler strips: uploadPath, plus "/" unless it is "/". -/
def openPre (svr : Server) : Str :=
  if svr.uploadPath ≠ ['/'] then svr.uploadPath ++ ['/'] else svr.uploadPath

/-- What the open handler did, beyond the new server and the response:
`created` is the path handed to os.Create (if reached), `opendirHookCalls`
counts invocations of the opendir hook. -/
structure OpenEff where
  svr : Server
  resp : Resp
  created : Option Str
  opendirHookCalls : Nat

/-- server.go sshFxpOpenPacket.respond.  `createErr` is the outcome of the
os.Create call if one happens (the os.Open of /dev/null in the virtual
directory branch is assumed to succeed). -/
def openRespond (svr : Server) (createErr : Option GoErr) (pathStr : Str)
    (fl : Pflags) : OpenEff :=
  let reqPath := pathClean pathStr
  if isUploadDirOrAncestor svr reqPath && openPktReadonly fl then
    let hookCalls := if svr.opendirHook then 1 else 0
    let nh := nextHandle svr ⟨strL "/dev/null", []⟩ reqPath
    ⟨nh.1, .handleR nh.2, none, hookCalls⟩
  else
    if !fl.write || fl.append then ⟨svr, sendErrorCode .opUnsupported, none, 0⟩
    else
      let pre := openPre svr
      if !(pre.isPrefixOf pathStr) then ⟨svr, sendErrorCode .noSuchPath, none, 0⟩
      else
        let fileName := pathStr.drop pre.length
        if fileName.contains '/' then ⟨svr, sendErrorCode .noSuchPath, none, 0⟩
        else
          let finish : Str → OpenEff := fun nm =>
            match createErr with
            | some e => ⟨svr, sendError (some e), some nm, 0⟩
            | none =>
              let nh := nextHandle svr ⟨nm, []⟩ []
              ⟨nh.1, .handleR nh.2, some nm, 0⟩
          match svr.fileNameMapper with
          | some m =>
            let r := m fileName
            if r.errored then ⟨svr, sendErrorCode .failure, none, 0⟩
            else if !r.ok then ⟨svr, sendErrorCode .invalidFilename, none, 0⟩
            else finish r.name
          | none => finish fileName

/-! ### Readdir handler (sshFxpReaddirPacket.respond) -/

/-- Mark the directory info of `handle` as already read (dirInfo.read = true). -/
def setDirRead (svr : Server) (handle : Str) : Server :=
  { svr with
      openDirs := svr.openDirs.map (fun kv =>
        if kv.1 == handle then (kv.1, { kv.2 with read := true }) else kv) }

/-- server.go sshFxpReaddirPacket.respond.  `hookRes` is the readdirHook()
outcome, `fsRes` the f.Readdir(128) outcome used when no hook is configured
(entries are reduced to their names). -/
def readdirRespond (svr : Server) (hookRes fsRes : Except GoErr (List Str))
    (handle : Str) : Server × Resp :=
  match getHandle svr handle with
  | none => (svr, sendError (some (.errno EBADF)))
  | some _ =>
    if svr.readdirHook then
      match getHandleDirInfo svr handle with
      | none => (svr, sendError (some (.errno EBADF)))
      | some dirInfo =>
        let dirPath := dirInfo.name
        if dirPath = svr.uploadPath then
          match hookRes with
          | .error e => (svr, sendError (some e))
          | .ok names => (svr, .nameListR names)
        else if isUploadDirOrAncestor svr dirPath then
          if dirInfo.read then (svr, sendError (some .ioEOF))
          else
            let prefixLen := if dirPath = ['/'] then 1 else dirPath.length + 1
            let childDirName := (svr.uploadPath.drop prefixLen).takeWhile (fun c => c != '/')
            (setDirRead svr handle, .nameListR [childDirName])
        else
          (svr, sendError (some (.errno EBADF)))
    else
      match fsRes with
      | .error e => (svr, sendError (some e))
      | .ok names => (svr, .nameListR names)

/-! ### Stat / realpath -/

/-- The doStat closure of server.go handlePacket: clean the path, synthesize
a directory entry if it is the upload dir or an ancestor, else ENOENT. -/
def doStat (svr : Server) (reqPath : Str) : Resp :=
  let rp := pathClean reqPath
  if isUploadDirOrAncestor svr rp then .statR rp
  else sendError (some (.errno ENOENT))

/-- The sshFxpRealpathPacket case of handlePacket. -/
def realpathRespond (svr : Server) (p : Str) : Resp :=
  let retPath :=
    if p = [] ∨ p.head? ≠ some '/' then pathClean (svr.uploadPath ++ ['/'] ++ p)
    else pathClean p
  .nameListR [retPath]

/-! ### Packet types and the worker pipeline -/

/-- The packet type tags the worker switch decodes (fxp values). -/
inductive Fxp where
  | fxInit | fxOpen | fxClose | fxRead | fxWrite | fxLstat | fxFstat
  | fxSetstat | fxFsetstat | fxOpendir | fxReaddir | fxRemove | fxMkdir
  | fxRmdir | fxRealpath | fxStat | fxRename | fxReadlink | fxSymlink
  | fxExtended
deriving DecidableEq, Repr

/-- server.go allowedPacketTypes: the map literal, as a membership test. -/
def allowedPacketTypes : Fxp → Bool
  | .fxInit | .fxOpen | .fxClose | .fxWrite | .fxStat | .fxLstat
  | .fxOpendir | .fxReaddir | .fxSetstat | .fxRealpath => true
  | _ => false

/-- Decoded packets with the payload fields this server inspects.  The
extended packet carries the readonly() classification of its inner
SpecificPacket (whose own decode lives outside server.go). -/
inductive Pkt where
  | initP
  | lstatP (path : Str)
  | openP (path : Str) (pflags : Pflags)
  | closeP (handle : Str)
  | readP (handle : Str) (off : Nat) (len : Nat)
  | writeP (handle : Str) (off : Nat) (data : List Nat)
  | fstatP (handle : Str)
  | setstatP (path : Str)
  | fsetstatP (handle : Str)
  | opendirP (path : Str)
  | readdirP (handle : Str)
  | removeP (path : Str)
  | mkdirP (path : Str)
  | rmdirP (path : Str)
  | realpathP (path : Str)
  | statP (path : Str)
  | renameP (oldpath newpath : Str)
  | readlinkP (path : Str)
  | symlinkP (target link : Str)
  | extendedP (innerReadonly : Bool)
deriving DecidableEq, Repr

def pktType : Pkt → Fxp
  | .initP => .fxInit
  | .lstatP _ => .fxLstat
  | .openP _ _ => .fxOpen
  | .closeP _ => .fxClose
  | .readP _ _ _ => .fxRead
  | .writeP _ _ _ => .fxWrite
  | .fstatP _ => .fxFstat
  | .setstatP _ => .fxSetstat
  | .fsetstatP _ => .fxFsetstat
  | .opendirP _ => .fxOpendir
  | .readdirP _ => .fxReaddir
  | .removeP _ => .fxRemove
  | .mkdirP _ => .fxMkdir
  | .rmdirP _ => .fxRmdir
  | .realpathP _ => .fxRealpath
  | .statP _ => .fxStat
  | .renameP _ _ => .fxRename
  | .readlinkP _ => .fxReadlink
  | .symlinkP _ _ => .fxSymlink
  | .extendedP _ => .fxExtended

/-- The worker's readonly classification: the switch sets readonly = false
for write/setstat/fsetstat/remove/mkdir/rmdir/rename/symlink, the open packet
delegates to its readonly() method, the extended packet to its inner packet. -/
def pktReadonly : Pkt → Bool
  | .writeP _ _ _ => false
  | .setstatP _ => false
  | .fsetstatP _ => false
  | .removeP _ => false
  | .mkdirP _ => false
  | .rmdirP _ => false
  | .renameP _ _ => false
  | .symlinkP _ _ => false
  | .openP _ fl => openPktReadonly fl
  | .extendedP inner => inner
  | _ => true

/-- How sftpServerWorker disposes of a decoded packet. -/
inductive Route where
  | unsupported
  | permDenied
  | handled
deriving DecidableEq, Repr

/-- The gate sequence of sftpServerWorker: first the allowedPacketTypes
check (op unsupported), then the read-only policy gate (EPERM), then
handlePacket. -/
def routeOf (svr : Server) (p : Pkt) : Route :=
  if !allowedPacketTypes (pktType p) then .unsupported
  else if !pktReadonly p && svr.readOnly then .permDenied
  else .handled

/-- External outcomes consumed by handlePacket: results of the OS primitives
and hooks invoked on paths/handles the server does not track itself. -/
structure Oracles where
  createErr : Option GoErr := none
  hookRes : Except GoErr (List Str) := .ok []
  fsReaddirRes : Except GoErr (List Str) := .ok []
  mkdirErr : Option GoErr := none
  rmdirErr : Option GoErr := none
  removeErr : Option GoErr := none
  renameErr : Option GoErr := none
  symlinkErr : Option GoErr := none
  readlinkRes : Except GoErr Str := .ok []
  fstatErr : Option GoErr := none
  fsetstatErr : Option GoErr := none
  readData : List Nat := []
  readErr : Option GoErr := none
  extendedResp : Resp := .statusR .failure []

/-- server.go handlePacket (plus the respond methods it dispatches to),
as a state transformer on the Server returning the response packet.
Packets whose handlers act on the external filesystem only (mkdir, rmdir,
remove, rename, symlink, readlink, fstat, fsetstat, read) take their
outcome from the `Oracles` oracles; the uploadNotifier invocations of closeHandle
are observable through closeHandle itself. -/
def handlePacketM (svr : Server) (ext : Oracles) : Pkt → Server × Resp
  | .initP => (svr, .versionR)
  | .statP p => (svr, doStat svr p)
  | .lstatP p => (svr, doStat svr p)
  | .fstatP h =>
    match getHandle svr h with
    | none => (svr, sendError (some (.errno EBADF)))
    | some f =>
      match ext.fstatErr with
      | some e => (svr, sendError (some e))
      | none => (svr, .statR f.name)
  | .mkdirP _ => (svr, sendError ext.mkdirErr)
  | .rmdirP _ => (svr, sendError ext.rmdirErr)
  | .removeP _ => (svr, sendError ext.removeErr)
  | .renameP _ _ => (svr, sendError ext.renameErr)
  | .symlinkP _ _ => (svr, sendError ext.symlinkErr)
  | .closeP h =>
    let r := closeHandle svr h
    (r.1, sendError r.2.1)
  | .readlinkP _ =>
    match ext.readlinkRes with
    | .error e => (svr, sendError (some e))
    | .ok f => (svr, .nameListR [f])
  | .realpathP p => (svr, realpathRespond svr p)
  | .opendirP p =>
    let eff := openRespond svr ext.createErr p { read := true }
    (eff.svr, eff.resp)
  | .openP p fl =>
    let eff := openRespond svr ext.createErr p fl
    (eff.svr, eff.resp)
  | .readP h _ _ =>
    match getHandle svr h with
    | none => (svr, sendError (some (.errno EBADF)))
    | some _ =>
      match ext.readErr with
      | some e =>
        if e = .ioEOF ∧ ext.readData ≠ [] then (svr, .dataR ext.readData)
        else (svr, sendError (some e))
      | none => (svr, .dataR ext.readData)
  | .writeP h off data =>
    let r := writeRespond svr h off data
    (r.1, sendError r.2)
  | .readdirP h => readdirRespond svr ext.hookRes ext.fsReaddirRes h
  | .setstatP _ => (svr, sendError none)
  | .fsetstatP h =>
    match getHandle svr h with
    | none => (svr, sendError (some (.errno EBADF)))
    | some _ => (svr, sendError ext.fsetstatErr)
  | .extendedP _ => (svr, ext.extendedResp)

/-- One worker iteration for one decoded packet: the gates of
sftpServerWorker followed by handlePacket. -/
def workerDispatch (svr : Server) (ext : Oracles) (p : Pkt) : Server × Resp :=
  match routeOf svr p with
  | .unsupported => (svr, sendErrorCode .opUnsupported)
  | .permDenied => (svr, sendError (some (.errno EPERM)))
  | .handled => handlePacketM svr ext p

/-! ### Shutdown cleanup (tail of Server.Serve) -/

structure CleanupTrace where
  logs : List (Str × Str)
  closes : List Str
  notes : List Str
deriving DecidableEq, Repr

/-- One iteration of the cleanup loop at the end of Serve: log the left-open
handle to the debug stream and close the file.  The loop never invokes the
uploadNotifier (notes stays untouched). -/
def cleanupStep (tr : CleanupTrace) (kv : Str × FileRes) : CleanupTrace :=
  { tr with
      logs := tr.logs ++ [(kv.1, kv.2.name)],
      closes := tr.closes ++ [kv.2.name] }

/-- The "close any still-open files" loop at the end of Server.Serve. -/
def serveCleanup (svr : Server) : CleanupTrace :=
  svr.openFiles.foldl cleanupStep ⟨[], [], []⟩

/-- Serve's return value together with the cleanup trace: the error returned
is the recvPacket error, regardless of what cleanup finds. -/
def serveResult (recvErr : Option GoErr) (svr : Server) :
    Option GoErr × CleanupTrace :=
  (recvErr, serveCleanup svr)

/-! ### Helper lemmas about the association-list maps -/

theorem lookup_eraseKey {β : Type} (l : List (Str × β)) (k : Str) :
    (eraseKey k l).lookup k = none := by
  induction l with
  | nil => rfl
  | cons kv t ih =>
    unfold eraseKey at ih ⊢
    rcases kv with ⟨a, b⟩
    by_cases h : a = k
    · simp [List.filter_cons, h, ih]
    · have hne : (a == k) = false := beq_eq_false_iff_ne.mpr h
      have hne' : (k == a) = false := beq_eq_false_iff_ne.mpr (Ne.symm h)
      simp [List.filter_cons, hne, List.lookup_cons, hne', ih]

theorem lookup_map_cond {β : Type} (l : List (Str × β)) (k tgt : Str) (g : β → β) :
    (l.map (fun kv => if kv.1 == tgt then (kv.1, g kv.2) else kv)).lookup k =
      (l.lookup k).map (fun v => if k = tgt then g v else v) := by
  induction l with
  | nil => rfl
  | cons kv t ih =>
    rcases kv with ⟨a, b⟩
    simp only [List.map_cons]
    by_cases h2 : k = a
    · subst h2
      by_cases h1 : k = tgt
      · have hb : (k == tgt) = true := beq_iff_eq.mpr h1
        simp [List.lookup_cons, hb, h1]
      · have hb : (k == tgt) = false := beq_eq_false_iff_ne.mpr h1
        simp [List.lookup_cons, hb, h1]
    · have hka : (k == a) = false := beq_eq_false_iff_ne.mpr h2
      by_cases h1 : a = tgt
      · have hb : (a == tgt) = true := beq_iff_eq.mpr h1
        simp only [List.lookup_cons, hb, if_true, hka]
        simpa using ih
      · have hb : (a == tgt) = false := beq_eq_false_iff_ne.mpr h1
        simp only [List.lookup_cons, hb, hka, Bool.false_eq_true, if_false]
        simpa using ih

theorem lookup_map_update {β : Type} (l : List (Str × β)) (k : Str) (g : β → β)
    (v : β) (h : l.lookup k = some v) :
    (l.map (fun kv => if kv.1 == k then (kv.1, g kv.2) else kv)).lookup k =
      some (g v) := by
  rw [lookup_map_cond, h]; simp

/-! ### Helper lemmas for segment extraction -/

theorem dropWhile_head_not {α : Type} (p : α → Bool) (l : List α) :
    l.dropWhile p = [] ∨ ∃ a t, l.dropWhile p = a :: t ∧ p a = false := by
  induction l with
  | nil => exact Or.inl rfl
  | cons x xs ih =>
    by_cases h : p x = true
    · rw [List.dropWhile_cons_of_pos h]; exact ih
    · rw [List.dropWhile_cons_of_neg (by simpa using h)]
      exact Or.inr ⟨x, xs, rfl, by simpa using h⟩

theorem takeWhile_not_contains (l : Str) :
    (l.takeWhile (fun c => c != '/')).contains '/' = false := by
  rw [← Bool.not_eq_true]
  intro hc
  have hm : '/' ∈ l.takeWhile (fun c => c != '/') := by
    simpa using hc
  have := List.mem_takeWhile_imp hm
  simp at this

/-! ### int64 range lemmas -/

theorem i64wrap_small (z : Int) (h0 : -(2 ^ 63) ≤ z) (h1 : z < 2 ^ 63) :
    i64wrap z = z := by
  unfold i64wrap
  have e : (z + 2 ^ 63) % 2 ^ 64 = z + 2 ^ 63 :=
    Int.emod_eq_of_lt (by omega) (by omega)
  omega

theorem toInt64_small (n : Nat) (h : n < 2 ^ 63) : toInt64 n = n := by
  have h' : (n : Int) < 2 ^ 63 := by exact_mod_cast h
  unfold toInt64
  exact i64wrap_small _ (by omega) h'

/-! ### Claim C2 -/

/-- Claim C2 (confirmed): for every string p, isUploadDirOrAncestor(p)
returns true iff p equals the configured upload directory, p equals "/",
or the upload directory string starts with p followed by "/". -/
theorem c2_isUploadDirOrAncestor_spec (svr : Server) (p : Str) :
    isUploadDirOrAncestor svr p = true ↔
      p = svr.uploadPath ∨ p = ['/'] ∨ ∃ rest, svr.uploadPath = p ++ '/' :: rest := by
  unfold isUploadDirOrAncestor
  split
  · rename_i hc
    simp only [Bool.or_eq_true, beq_iff_eq] at hc
    simp only [true_iff]
    rcases hc with hc | hc
    · exact Or.inl hc
    · exact Or.inr (Or.inl hc)
  · rename_i hc
    simp only [Bool.or_eq_true, beq_iff_eq, not_or] at hc
    rw [List.isPrefixOf_iff_prefix]
    constructor
    · intro hp
      obtain ⟨t, ht⟩ := hp
      refine Or.inr (Or.inr ⟨t, ?_⟩)
      rw [← ht]; simp
    · rintro (h | h | ⟨rest, hr⟩)
      · exact absurd h hc.1
      · exact absurd h hc.2
      · exact ⟨rest, by rw [hr]; simp⟩

/-! ### Claim C5 -/

/-- Claim C5 (corrected): the error translation is pure and total; nil maps
to OK, io.EOF to EOF, ENOENT to NO_SUCH_FILE, EPERM to PERMISSION_DENIED, an
errno wrapped one level inside an os.PathError is unwrapped and translated
the same way, and other non-nil errors map to FAILURE carrying the error's
textual description — except that an errno equal to zero (bare or wrapped)
maps to OK, and the message is non-empty only when the error's description
is. -/
theorem c5_statusFromError_spec (n : Nat) (e : GoErr) (op pth m : Str) :
    statusFromError none = (.ok, [])
    ∧ (statusFromError (some .ioEOF)).1 = .eof
    ∧ (statusFromError (some (.errno ENOENT))).1 = .noSuchFile
    ∧ (statusFromError (some (.errno EPERM))).1 = .permissionDenied
    ∧ (statusFromError (some (.errno 0))).1 = .ok
    ∧ (n ≠ 0 → n ≠ ENOENT → n ≠ EPERM →
        (statusFromError (some (.errno n))).1 = .failure)
    ∧ (statusFromError (some (.pathErr op pth (.errno n)))).1 =
        (statusFromError (some (.errno n))).1
    ∧ (statusFromError (some (.pathErr op pth .ioEOF))).1 = .failure
    ∧ (statusFromError (some (.other m))).1 = .failure
    ∧ (statusFromError (some e)).2 = errMsg e
    ∧ (errMsg e ≠ [] → (statusFromError (some e)).2 ≠ []) := by
  refine ⟨rfl, rfl, rfl, rfl, rfl, ?_, ?_, rfl, rfl, ?_, ?_⟩
  · intro h0 h2 h1
    unfold ENOENT at h2
    unfold EPERM at h1
    simp [statusFromError, translateErrno, ENOENT, EPERM, h0, h2, h1]
  · rfl
  · cases e <;> rfl
  · intro h
    have : (statusFromError (some e)).2 = errMsg e := by cases e <;> rfl
    rw [this]; exact h

/-- Witness for C5 at concrete inputs. -/
theorem c5_statusFromError_witness :
    (statusFromError (some (.errno 9))).1 = .failure
    ∧ (statusFromError (some (.other (strL "boom")))).2 ≠ [] := by
  have h := c5_statusFromError_spec 9 (.other (strL "boom")) [] [] (strL "boom")
  exact ⟨h.2.2.2.2.2.1 (by decide) (by decide) (by decide),
         h.2.2.2.2.2.2.2.2.2.2 (by decide)⟩

/-- Counterexample for C5 as stated: syscall.Errno(0) is a non-nil error
that is neither the EOF sentinel, nor ENOENT, nor EPERM, yet it is mapped
to OK rather than FAILURE. -/
theorem c5_statusFromError_cex :
    (statusFromError (some (GoErr.errno 0))).1 = Status.ok
    ∧ Status.ok ≠ Status.failure
    ∧ some (GoErr.errno 0) ≠ (none : Option GoErr)
    ∧ GoErr.errno 0 ≠ GoErr.ioEOF
    ∧ (0 : Nat) ≠ ENOENT ∧ (0 : Nat) ≠ EPERM := by decide

/-! ### Claim C9 -/

/-- Claim C9 (corrected): when the serving loop shuts down, every handle
still open is forcibly closed and reported through the diagnostics sink,
without failing the shutdown; but the upload-completion notifier is NOT
invoked for these force-closed files (the cleanup loop never calls it). -/
theorem c9_serve_cleanup_spec (svr : Server) (recvErr : Option GoErr) :
    (serveCleanup svr).closes = svr.openFiles.map (fun kv => kv.2.name)
    ∧ (serveCleanup svr).logs = svr.openFiles.map (fun kv => (kv.1, kv.2.name))
    ∧ (serveCleanup svr).notes = []
    ∧ (serveResult recvErr svr).1 = recvErr := by
  have key : ∀ (l : List (Str × FileRes)) (tr : CleanupTrace),
      l.foldl cleanupStep tr =
        { logs := tr.logs ++ l.map (fun kv => (kv.1, kv.2.name)),
          closes := tr.closes ++ l.map (fun kv => kv.2.name),
          notes := tr.notes } := by
    intro l
    induction l with
    | nil => intro tr; simp
    | cons kv t ih =>
      intro tr
      simp [List.foldl_cons, ih, cleanupStep]
  unfold serveCleanup serveResult
  rw [key]
  exact ⟨by simp, by simp, rfl, rfl⟩

/-- Counterexample for C9 as stated: a server with the notifier configured
and one handle left open at shutdown; the file is closed and logged, but
the notifier invocation list is empty, not ["f.txt"]. -/
theorem c9_serve_cleanup_cex :
    (serveCleanup { uploadNotifier := true,
                    openFiles := [(['1'], ⟨strL "f.txt", []⟩)] }).notes = []
    ∧ (serveCleanup { uploadNotifier := true,
                      openFiles := [(['1'], ⟨strL "f.txt", []⟩)] }).closes =
        [strL "f.txt"]
    ∧ ([] : List Str) ≠ [strL "f.txt"] := by
  refine ⟨rfl, rfl, by decide⟩

/-! ### Claim C1 -/

/-- Claim C1 (corrected): with the server not read-only, a decoded packet is
routed to its operation handler iff its type is in allowedPacketTypes, which
contains exactly init, open, close, write, stat, lstat, opendir, readdir,
setstat and realpath; every other decoded type — including read, fstat,
fsetstat, mkdir, rmdir, remove, rename, symlink, readlink and the extended
wrapper, which the claim lists as routed — is answered operation-unsupported. -/
theorem c1_dispatch_routing (svr : Server) (p : Pkt) (hro : svr.readOnly = false) :
    (routeOf svr p = .handled ↔ allowedPacketTypes (pktType p) = true)
    ∧ (routeOf svr p = .unsupported ↔ allowedPacketTypes (pktType p) = false)
    ∧ (allowedPacketTypes (pktType p) = true ↔
        pktType p ∈ [Fxp.fxInit, Fxp.fxOpen, Fxp.fxClose, Fxp.fxWrite, Fxp.fxStat,
          Fxp.fxLstat, Fxp.fxOpendir, Fxp.fxReaddir, Fxp.fxSetstat, Fxp.fxRealpath]) := by
  have hmem : ∀ t : Fxp, allowedPacketTypes t = true ↔
      t ∈ [Fxp.fxInit, Fxp.fxOpen, Fxp.fxClose, Fxp.fxWrite, Fxp.fxStat,
        Fxp.fxLstat, Fxp.fxOpendir, Fxp.fxReaddir, Fxp.fxSetstat, Fxp.fxRealpath] := by
    intro t; cases t <;> simp [allowedPacketTypes]
  unfold routeOf
  rw [hro]
  refine ⟨?_, ?_, hmem (pktType p)⟩ <;>
    cases hA : allowedPacketTypes (pktType p) <;> simp [hA]

/-- Witness for C1: a stat packet is routed to its handler. -/
theorem c1_dispatch_routing_witness :
    routeOf { } (Pkt.statP ['/']) = Route.handled := by
  have h := c1_dispatch_routing { } (Pkt.statP ['/']) rfl
  exact h.1.mpr (by decide)

/-- Counterexample for C1 as stated: a read packet, which the claim lists
among the routed types, is answered operation-unsupported. -/
theorem c1_dispatch_routing_cex :
    routeOf { } (Pkt.readP ['1'] 0 0) = Route.unsupported
    ∧ workerDispatch { } { } (Pkt.readP ['1'] 0 0) =
        ({ }, sendErrorCode Status.opUnsupported) :=
  ⟨rfl, rfl⟩

/-! ### Claim C8 -/

/-- Claim C8 (corrected): with the server read-only, a mutating packet never
reaches its handler and the server state is unchanged (in particular no
handle is allocated); but only the mutating packets whose type passes the
allowed-types gate (write, setstat, and an open carrying the write flag) are
answered permission-denied — the other mutating types (fsetstat, remove,
mkdir, rmdir, rename, symlink, a mutating extended packet) are answered
operation-unsupported by the earlier gate. -/
theorem c8_readonly_gate (svr : Server) (orc : Oracles) (p : Pkt)
    (hro : svr.readOnly = true) (hmut : pktReadonly p = false) :
    routeOf svr p ≠ .handled
    ∧ (allowedPacketTypes (pktType p) = true →
        routeOf svr p = .permDenied
        ∧ workerDispatch svr orc p = (svr, sendError (some (.errno EPERM))))
    ∧ (allowedPacketTypes (pktType p) = false →
        routeOf svr p = .unsupported
        ∧ workerDispatch svr orc p = (svr, sendErrorCode .opUnsupported))
    ∧ (workerDispatch svr orc p).1 = svr := by
  have hroute : routeOf svr p =
      (if allowedPacketTypes (pktType p) then Route.permDenied
       else Route.unsupported) := by
    unfold routeOf
    rw [hro, hmut]
    cases allowedPacketTypes (pktType p) <;> rfl
  cases hA : allowedPacketTypes (pktType p)
  · rw [hA] at hroute
    simp only [Bool.false_eq_true, if_false] at hroute
    have hw : workerDispatch svr orc p = (svr, sendErrorCode .opUnsupported) := by
      unfold workerDispatch
      rw [hroute]
    refine ⟨by simp [hroute], by simp, fun _ => ⟨hroute, hw⟩, by rw [hw]⟩
  · rw [hA] at hroute
    simp only [if_true] at hroute
    have hw : workerDispatch svr orc p = (svr, sendError (some (.errno EPERM))) := by
      unfold workerDispatch
      rw [hroute]
    refine ⟨by simp [hroute], fun _ => ⟨hroute, hw⟩, by simp, by rw [hw]⟩

/-- Witness for C8: a write packet on a read-only server is answered
permission-denied with the state unchanged. -/
theorem c8_readonly_gate_witness :
    workerDispatch { readOnly := true } { } (Pkt.writeP ['1'] 0 [1]) =
      ({ readOnly := true }, sendError (some (.errno EPERM))) := by
  have h := c8_readonly_gate { readOnly := true } { } (Pkt.writeP ['1'] 0 [1]) rfl rfl
  exact (h.2.1 (by decide)).2

/-- Counterexample for C8 as stated: a mkdir packet (mutating) on a
read-only server is answered operation-unsupported, not permission-denied. -/
theorem c8_readonly_gate_cex :
    routeOf { readOnly := true } (Pkt.mkdirP (strL "/up/x")) = Route.unsupported
    ∧ workerDispatch { readOnly := true } { } (Pkt.mkdirP (strL "/up/x")) =
        ({ readOnly := true }, sendErrorCode Status.opUnsupported)
    ∧ sendErrorCode Status.opUnsupported ≠ sendError (some (.errno EPERM)) := by
  refine ⟨rfl, rfl, by decide⟩

/-! ### Claim C4 -/

/-- Claim C4 (corrected, for requests with offset + len(data) < 2^63): a
write on a valid handle fails with EFBIG iff a positive file-size limit is
configured and offset + len(data) exceeds it, and then nothing is written;
otherwise the data is written at the offset.  (For larger offsets the
uint64 offset reinterpreted as int64 goes negative, the limit check is
bypassed, and the underlying WriteAt rejects the negative offset instead —
see the counterexample.) -/
theorem c4_write_size_limit (svr : Server) (handle : Str) (f : FileRes)
    (off : Nat) (data : List Nat)
    (hf : svr.openFiles.lookup handle = some f)
    (hrange : off + data.length < 2 ^ 63) :
    ((writeRespond svr handle off data).2 = some (.errno EFBIG) ↔
       0 < svr.fileSizeLimit ∧ svr.fileSizeLimit < (off : Int) + data.length)
    ∧ ((writeRespond svr handle off data).2 = some (.errno EFBIG) →
        (writeRespond svr handle off data).1 = svr)
    ∧ ((writeRespond svr handle off data).2 ≠ some (.errno EFBIG) →
        (writeRespond svr handle off data).2 = none
        ∧ (writeRespond svr handle off data).1.openFiles.lookup handle =
            some { f with content := writeAt f.content off data }) := by
  have hoff : toInt64 off = (off : Int) := toInt64_small off (by omega)
  have hsum : i64wrap ((off : Int) + (data.length : Int)) = (off : Int) + data.length := by
    apply i64wrap_small
    · omega
    · exact_mod_cast hrange
  have hnn : ¬ ((off : Int) < 0) := by omega
  unfold writeRespond
  rw [hf]
  simp only [hoff, hsum]
  by_cases hc : 0 < svr.fileSizeLimit ∧ svr.fileSizeLimit < (off : Int) + data.length
  · rw [if_pos (by exact_mod_cast hc)]
    exact ⟨⟨fun _ => hc, fun _ => rfl⟩, fun _ => rfl, fun hne => absurd rfl hne⟩
  · rw [if_neg (by exact_mod_cast hc), if_neg hnn]
    refine ⟨?_, ?_, ?_⟩
    · constructor
      · intro h; simp at h
      · intro h; exact absurd h hc
    · intro h; simp at h
    · intro _
      refine ⟨rfl, ?_⟩
      have htn : ((off : Int)).toNat = off := Int.toNat_natCast off
      unfold updateContent
      simp only [htn]
      exact lookup_map_update svr.openFiles handle
        (fun v => { v with content := writeAt f.content off data }) f hf

/-- Witness for C4: a write of 2 bytes at offset 1 against limit 2 fails
with EFBIG and leaves the server unchanged. -/
theorem c4_write_size_limit_witness :
    (writeRespond { fileSizeLimit := 2, openFiles := [(['1'], ⟨['f'], []⟩)] }
        ['1'] 1 [5, 6]).2 = some (.errno EFBIG)
    ∧ (writeRespond { fileSizeLimit := 2, openFiles := [(['1'], ⟨['f'], []⟩)] }
        ['1'] 1 [5, 6]).1 =
      { fileSizeLimit := 2, openFiles := [(['1'], ⟨['f'], []⟩)] } := by
  have h := c4_write_size_limit
    { fileSizeLimit := 2, openFiles := [(['1'], ⟨['f'], []⟩)] }
    ['1'] ⟨['f'], []⟩ 1 [5, 6] rfl (by norm_num)
  have he := h.1.mpr (by decide)
  exact ⟨he, h.2.1 he⟩

/-- Counterexample for C4 as stated: at offset 2^63 with limit 1 the claim
requires a "file too large" failure (offset + 1 > 1), but int64(offset) is
negative, the limit check passes, and WriteAt fails with a negative-offset
path error instead. -/
theorem c4_write_size_limit_cex :
    (writeRespond { fileSizeLimit := 1, openFiles := [(['1'], ⟨['f'], []⟩)] }
        ['1'] 9223372036854775808 [7]).2 =
      some (.pathErr (strL "writeat") ['f'] (.other (strL "negative offset")))
    ∧ (1 : Int) < 9223372036854775808 + 1
    ∧ some (GoErr.pathErr (strL "writeat") ['f'] (.other (strL "negative offset"))) ≠
        some (GoErr.errno EFBIG) := by
  refine ⟨by decide, by norm_num, by decide⟩

/-! ### Claim C6 -/

/-- Lookup miss makes closeHandle fail with EBADF and change nothing. -/
theorem closeHandle_not_found (svr : Server) (h : Str)
    (hn : svr.openFiles.lookup h = none) :
    closeHandle svr h = (svr, some (.errno EBADF), []) := by
  unfold closeHandle
  rw [hn]

/-- Claim C6 (confirmed): the first close of an issued handle removes it and
succeeds, notifying the upload notifier (when configured) exactly once with
the resource's final name for file handles and never for directory handles;
a second close of the same handle fails with EBADF ("bad handle") and
performs no notification. -/
theorem c6_close_handle_lifecycle (svr : Server) (handle : Str) (f : FileRes)
    (hf : svr.openFiles.lookup handle = some f) :
    (closeHandle svr handle).2.1 = none
    ∧ (closeHandle svr handle).1.openFiles.lookup handle = none
    ∧ (closeHandle svr handle).2.2 =
        (if svr.uploadNotifier && !(svr.openDirs.lookup handle).isSome
         then [f.name] else [])
    ∧ ((svr.openDirs.lookup handle).isSome = true →
        (closeHandle svr handle).2.2 = [])
    ∧ closeHandle (closeHandle svr handle).1 handle =
        ((closeHandle svr handle).1, some (.errno EBADF), []) := by
  have hred : closeHandle svr handle =
      ({ svr with
          openFiles := eraseKey handle svr.openFiles,
          openDirs := if (svr.openDirs.lookup handle).isSome
            then eraseKey handle svr.openDirs else svr.openDirs },
        none,
        if svr.uploadNotifier && !(svr.openDirs.lookup handle).isSome
          then [f.name] else []) := by
    unfold closeHandle
    rw [hf]
  have hnone : (closeHandle svr handle).1.openFiles.lookup handle = none := by
    rw [hred]
    exact lookup_eraseKey svr.openFiles handle
  refine ⟨by rw [hred], hnone, by rw [hred], ?_, ?_⟩
  · intro hd
    rw [hred]
    simp [hd]
  · exact closeHandle_not_found _ _ hnone

def c6svr : Server :=
  { uploadNotifier := true, openFiles := [(['1'], ⟨strL "f.txt", []⟩)] }

/-- Witness for C6: closing handle "1" notifies with "f.txt"; the second
close fails with EBADF. -/
theorem c6_close_handle_lifecycle_witness :
    (closeHandle c6svr ['1']).2.2 = [strL "f.txt"]
    ∧ (closeHandle (closeHandle c6svr ['1']).1 ['1']).2.1 =
      some (.errno EBADF) := by
  have h := c6_close_handle_lifecycle c6svr ['1'] ⟨strL "f.txt", []⟩ rfl
  refine ⟨by rw [h.2.2.1]; decide, by rw [h.2.2.2.2]⟩

/-! ### Claim C3 -/

/-- The spec side of "the filename-mapping hook, when configured, accepts". -/
def mapperAccepts : Option (Str → MapResult) → Str → Prop
  | none, _ => True
  | some m, s => (m s).errored = false ∧ (m s).ok = true

/-- Claim C3 (confirmed): an open request carrying the write flag allocates a
handle iff append is absent, the raw path extends the upload-directory
prefix, the remaining filename contains no slash, and the mapping hook (when
configured) accepts it; otherwise it answers op-unsupported for append,
no-such-path for a path that is not such an immediate child, failure when
the hook errors, and invalid-filename when the hook rejects.  (The
os.Create oracle is instantiated with success.) -/
theorem c3_open_write_gate (svr : Server) (pathStr : Str) (fl : Pflags)
    (hw : fl.write = true) :
    ((∃ h, (openRespond svr none pathStr fl).resp = .handleR h) ↔
       (fl.append = false
        ∧ (openPre svr).isPrefixOf pathStr = true
        ∧ (pathStr.drop (openPre svr).length).contains '/' = false
        ∧ mapperAccepts svr.fileNameMapper (pathStr.drop (openPre svr).length)))
    ∧ (fl.append = true →
        (openRespond svr none pathStr fl).resp = sendErrorCode .opUnsupported)
    ∧ ((openPre svr).isPrefixOf pathStr = false → fl.append = false →
        (openRespond svr none pathStr fl).resp = sendErrorCode .noSuchPath)
    ∧ ((openPre svr).isPrefixOf pathStr = true → fl.append = false →
        (pathStr.drop (openPre svr).length).contains '/' = true →
        (openRespond svr none pathStr fl).resp = sendErrorCode .noSuchPath)
    ∧ (∀ m, svr.fileNameMapper = some m → fl.append = false →
        (openPre svr).isPrefixOf pathStr = true →
        (pathStr.drop (openPre svr).length).contains '/' = false →
        ((m (pathStr.drop (openPre svr).length)).errored = true →
          (openRespond svr none pathStr fl).resp = sendErrorCode .failure)
        ∧ ((m (pathStr.drop (openPre svr).length)).errored = false →
            (m (pathStr.drop (openPre svr).length)).ok = false →
          (openRespond svr none pathStr fl).resp = sendErrorCode .invalidFilename)) := by
  have hro : openPktReadonly fl = false := by
    unfold openPktReadonly; rw [hw]; rfl
  unfold openRespond
  simp only [hro, Bool.and_false, Bool.false_eq_true, if_false, hw,
    Bool.not_true, Bool.false_or]
  cases hap : fl.append
  · simp only [Bool.false_eq_true, if_false]
    cases hpre : (openPre svr).isPrefixOf pathStr
    · simp [mapperAccepts, sendErrorCode]
    · simp only [Bool.not_true, Bool.false_eq_true, if_false]
      cases hcont : (pathStr.drop (openPre svr).length).contains '/'
      · cases hm : svr.fileNameMapper with
        | none => simp [mapperAccepts, hm, sendErrorCode]
        | some m =>
          cases herr : (m (pathStr.drop (openPre svr).length)).errored
          · cases hok : (m (pathStr.drop (openPre svr).length)).ok
            · simp [mapperAccepts, hm, herr, hok, sendErrorCode]
            · simp [mapperAccepts, hm, herr, hok, sendErrorCode]
          · simp [mapperAccepts, hm, herr, sendErrorCode]
      · simp [sendErrorCode]
  · simp [sendErrorCode]

def c3svr : Server := { uploadPath := strL "/up" }

/-- Witness for C3: opening "/up/f.txt" with the write flag on upload dir
"/up" allocates a handle. -/
theorem c3_open_write_gate_witness :
    (∃ h, (openRespond c3svr none (strL "/up/f.txt") { write := true }).resp =
      .handleR h) := by
  have h := c3_open_write_gate c3svr (strL "/up/f.txt") { write := true } rfl
  exact h.1.mpr ⟨rfl, by decide, by decide, trivial⟩

/-! ### Claim C10 -/

theorem openPre_ne_nil (svr : Server) : openPre svr ≠ [] := by
  unfold openPre
  split
  · simp
  · rename_i h
    rw [not_not] at h
    rw [h]
    simp

/-- The filename os.Create receives after the optional mapping hook. -/
def mapName : Option (Str → MapResult) → Str → Str
  | none, s => s
  | some m, s => (m s).name

/-- Claim C10 (confirmed): when a write-mode open reaches the file-creation
primitive, the path handed to os.Create is the (possibly hook-mapped) bare
filename with the upload-directory prefix stripped; that stripped filename
contains no slash and is strictly shorter than the client-supplied path, so
without a mapping hook the file is created under a bare relative name in
the process working directory, not at the client-supplied path. -/
theorem c10_create_relative (svr : Server) (createErr : Option GoErr)
    (pathStr : Str) (fl : Pflags) (nm : Str)
    (hw : fl.write = true)
    (hcr : (openRespond svr createErr pathStr fl).created = some nm) :
    nm = mapName svr.fileNameMapper (pathStr.drop (openPre svr).length)
    ∧ (pathStr.drop (openPre svr).length).contains '/' = false
    ∧ (pathStr.drop (openPre svr).length).length < pathStr.length
    ∧ (svr.fileNameMapper = none →
        nm = pathStr.drop (openPre svr).length ∧ nm ≠ pathStr) := by
  have hro : openPktReadonly fl = false := by
    unfold openPktReadonly; rw [hw]; rfl
  unfold openRespond at hcr
  simp only [hro, Bool.and_false, Bool.false_eq_true, if_false, hw,
    Bool.not_true, Bool.false_or] at hcr
  split at hcr
  · simp at hcr
  · split at hcr
    · simp at hcr
    · split at hcr
      · simp at hcr
      · rename_i hap0 hpre0 hcont0
        have hpre : (openPre svr).isPrefixOf pathStr = true := by
          simpa using hpre0
        have hcont2 : (pathStr.drop (openPre svr).length).contains '/' = false := by
          simpa using hcont0
        have hlen : (pathStr.drop (openPre svr).length).length < pathStr.length := by
          have hp : openPre svr <+: pathStr := List.isPrefixOf_iff_prefix.mp hpre
          have h1 : (openPre svr).length ≤ pathStr.length := hp.length_le
          have h2 : 0 < (openPre svr).length := by
            cases hh : openPre svr with
            | nil => exact absurd hh (openPre_ne_nil svr)
            | cons a t => simp
          rw [List.length_drop]
          omega
        split at hcr
        · rename_i m hm
          split at hcr
          · simp at hcr
          · split at hcr
            · simp at hcr
            · have hnm : nm = (m (pathStr.drop (openPre svr).length)).name := by
                cases createErr <;> simpa using hcr.symm
              refine ⟨by rw [hm]; simpa [mapName] using hnm, hcont2, hlen,
                fun hno => ?_⟩
              rw [hno] at hm
              cases hm
        · rename_i hm
          have hnm : nm = pathStr.drop (openPre svr).length := by
            cases createErr <;> simpa using hcr.symm
          refine ⟨by rw [hm]; simpa [mapName] using hnm, hcont2, hlen,
            fun _ => ⟨hnm, ?_⟩⟩
          rw [hnm]
          intro he
          have := congrArg List.length he
          omega

def c10svr : Server := { uploadPath := strL "/up" }

/-- Witness for C10: the successful open of "/up/f.txt" hands os.Create the
bare name "f.txt". -/
theorem c10_create_relative_witness :
    (openRespond c10svr none (strL "/up/f.txt") { write := true }).created =
      some (strL "f.txt")
    ∧ strL "f.txt" = mapName c10svr.fileNameMapper
        ((strL "/up/f.txt").drop (openPre c10svr).length)
    ∧ strL "f.txt" ≠ strL "/up/f.txt" := by
  have hcr : (openRespond c10svr none (strL "/up/f.txt") { write := true }).created =
      some (strL "f.txt") := by decide
  have h := c10_create_relative c10svr none (strL "/up/f.txt") { write := true }
    (strL "f.txt") rfl hcr
  exact ⟨hcr, h.1, (h.2.2.2 rfl).2⟩

/-! ### Claim C7 -/

/-- Claim C7 (confirmed): with the readdir hook configured, a handle whose
directory info names a qualifying strict ancestor of the upload directory
emits, on its first readdir, exactly one synthetic entry — the next path
segment toward the upload directory — and marks the handle's dir info as
read; the second readdir on that handle answers end-of-stream and changes
nothing; the read flag of any dir info never reverts to false; and a handle
whose directory info names the upload directory itself delegates to the
hook's result. -/
theorem c7_readdir_virtual (svr : Server) (hookRes fsRes : Except GoErr (List Str))
    (handle : Str) (f : FileRes) (di : openDirInfo)
    (hhook : svr.readdirHook = true)
    (hf : svr.openFiles.lookup handle = some f)
    (hd : svr.openDirs.lookup handle = some di)
    (habs : svr.uploadPath.head? = some '/')
    (hanc : isUploadDirOrAncestor svr di.name = true)
    (hne : di.name ≠ svr.uploadPath) :
    (di.read = false →
       (∃ seg rest,
          (readdirRespond svr hookRes fsRes handle).2 = .nameListR [seg]
          ∧ seg.contains '/' = false
          ∧ svr.uploadPath =
              (if di.name = ['/'] then ['/'] else di.name ++ ['/']) ++ seg ++ rest
          ∧ (rest = [] ∨ ∃ r2, rest = '/' :: r2))
       ∧ (readdirRespond svr hookRes fsRes handle).1.openDirs.lookup handle =
           some { di with read := true }
       ∧ (readdirRespond (readdirRespond svr hookRes fsRes handle).1
             hookRes fsRes handle).2 = sendError (some .ioEOF)
       ∧ (readdirRespond (readdirRespond svr hookRes fsRes handle).1
             hookRes fsRes handle).1 = (readdirRespond svr hookRes fsRes handle).1)
    ∧ (di.read = true →
        readdirRespond svr hookRes fsRes handle = (svr, sendError (some .ioEOF)))
    ∧ (∀ h2 f2 di2, svr.openFiles.lookup h2 = some f2 →
        svr.openDirs.lookup h2 = some di2 → di2.name = svr.uploadPath →
        (∀ names, hookRes = .ok names →
          readdirRespond svr hookRes fsRes h2 = (svr, .nameListR names))
        ∧ (∀ e, hookRes = .error e →
          readdirRespond svr hookRes fsRes h2 = (svr, sendError (some e))))
    ∧ (∀ h2 h3 d1 d2, svr.openDirs.lookup h3 = some d1 → d1.read = true →
        (readdirRespond svr hookRes fsRes h2).1.openDirs.lookup h3 = some d2 →
        d2.read = true) := by
  refine ⟨?_, ?_, ?_, ?_⟩
  · -- first call on an unread ancestor handle
    intro hr
    have hrun : readdirRespond svr hookRes fsRes handle =
        (setDirRead svr handle,
         .nameListR [(svr.uploadPath.drop
             (if di.name = ['/'] then 1 else di.name.length + 1)).takeWhile
             (fun c => c != '/')]) := by
      unfold readdirRespond
      rw [show getHandle svr handle = some f from hf]
      rw [show getHandleDirInfo svr handle = some di from hd]
      rw [hhook]
      simp only [if_true, if_neg hne, hanc, hr, Bool.false_eq_true, if_false]
    have hlookup2 : (setDirRead svr handle).openDirs.lookup handle =
        some { di with read := true } := by
      unfold setDirRead
      exact lookup_map_update svr.openDirs handle
        (fun d => { d with read := true }) di hd
    have hsplit : svr.uploadPath =
        (if di.name = ['/'] then ['/'] else di.name ++ ['/']) ++
          svr.uploadPath.drop (if di.name = ['/'] then 1 else di.name.length + 1) := by
      by_cases hroot : di.name = ['/']
      · rw [if_pos hroot, if_pos hroot]
        cases hu : svr.uploadPath with
        | nil => rw [hu] at habs; cases habs
        | cons c t =>
          rw [hu] at habs
          simp only [List.head?_cons, Option.some.injEq] at habs
          rw [habs]
          simp
      · rw [if_neg hroot, if_neg hroot]
        have hcond : (di.name == svr.uploadPath || di.name == ['/']) = false := by
          simp [hne, hroot]
        unfold isUploadDirOrAncestor at hanc
        rw [hcond] at hanc
        simp only [Bool.false_eq_true, if_false] at hanc
        obtain ⟨t, ht⟩ := List.isPrefixOf_iff_prefix.mp hanc
        rw [← ht]
        rw [show di.name.length + 1 = (di.name ++ ['/']).length by simp]
        rw [List.drop_left]
    have hrun2 : readdirRespond (setDirRead svr handle) hookRes fsRes handle =
        (setDirRead svr handle, sendError (some .ioEOF)) := by
      unfold readdirRespond
      rw [show getHandle (setDirRead svr handle) handle = some f from hf]
      rw [show getHandleDirInfo (setDirRead svr handle) handle =
            some { di with read := true } from hlookup2]
      rw [show (setDirRead svr handle).readdirHook = true from hhook]
      have hne' : ({ di with read := true } : openDirInfo).name ≠
          (setDirRead svr handle).uploadPath := hne
      have hanc' : isUploadDirOrAncestor (setDirRead svr handle)
          ({ di with read := true } : openDirInfo).name = true := hanc
      simp only [if_true, if_neg hne', hanc']
    refine ⟨⟨(svr.uploadPath.drop
        (if di.name = ['/'] then 1 else di.name.length + 1)).takeWhile
          (fun c => c != '/'),
      (svr.uploadPath.drop
        (if di.name = ['/'] then 1 else di.name.length + 1)).dropWhile
          (fun c => c != '/'), ?_, ?_, ?_, ?_⟩, ?_, ?_, ?_⟩
    · rw [hrun]
    · exact takeWhile_not_contains _
    · rw [List.append_assoc, List.takeWhile_append_dropWhile]
      exact hsplit
    · rcases dropWhile_head_not (fun c => c != '/')
          (svr.uploadPath.drop (if di.name = ['/'] then 1 else di.name.length + 1))
        with h | ⟨a, t2, he, hpa⟩
      · exact Or.inl h
      · refine Or.inr ⟨t2, ?_⟩
        simp only [bne_eq_false_iff_eq, beq_iff_eq] at hpa
        rw [he, hpa]
    · rw [hrun]
      exact hlookup2
    · rw [hrun]
      rw [hrun2]
    · rw [hrun]
      rw [hrun2]
  · -- repeated call: already read
    intro hr
    unfold readdirRespond
    rw [show getHandle svr handle = some f from hf]
    rw [show getHandleDirInfo svr handle = some di from hd]
    rw [hhook]
    simp only [if_true, if_neg hne, hanc, hr, if_true]
  · -- delegation when the dir info names the upload directory
    intro h2 f2 di2 hf2 hd2 hname
    constructor
    · intro names hok
      unfold readdirRespond
      rw [show getHandle svr h2 = some f2 from hf2]
      rw [show getHandleDirInfo svr h2 = some di2 from hd2]
      rw [hhook, hok]
      simp only [if_true, if_pos hname]
    · intro e herr
      unfold readdirRespond
      rw [show getHandle svr h2 = some f2 from hf2]
      rw [show getHandleDirInfo svr h2 = some di2 from hd2]
      rw [hhook, herr]
      simp only [if_true, if_pos hname]
  · -- the read flag never reverts
    intro h2 h3 d1 d2 hd1 hread hd2'
    have hstate : (readdirRespond svr hookRes fsRes h2).1 = svr ∨
        (readdirRespond svr hookRes fsRes h2).1 = setDirRead svr h2 := by
      unfold readdirRespond
      cases hg : getHandle svr h2 with
      | none => exact Or.inl rfl
      | some f3 =>
        rw [hhook]
        simp only [if_true]
        cases hgd : getHandleDirInfo svr h2 with
        | none => exact Or.inl rfl
        | some di3 =>
          dsimp only
          by_cases hn3 : di3.name = svr.uploadPath
          · rw [if_pos hn3]
            cases hookRes <;> exact Or.inl rfl
          · rw [if_neg hn3]
            cases ha3 : isUploadDirOrAncestor svr di3.name
            · simp [ha3]
            · simp only [ha3, if_true]
              cases hr3 : di3.read
              · simp [hr3]
              · simp [hr3]
    rcases hstate with hst | hst
    · rw [hst] at hd2'
      rw [hd1] at hd2'
      cases hd2'
      exact hread
    · rw [hst] at hd2'
      simp only [setDirRead] at hd2'
      rw [lookup_map_cond svr.openDirs h3 h2
        (fun d => { d with read := true }), hd1] at hd2'
      simp only [Option.map_some'] at hd2'
      by_cases hh32 : h3 = h2
      · rw [if_pos hh32] at hd2'
        cases hd2'
        rfl
      · rw [if_neg hh32] at hd2'
        cases hd2'
        exact hread

def c7svr : Server :=
  { readdirHook := true, uploadPath := strL "/a/b",
    openFiles := [(['1'], ⟨strL "/dev/null", []⟩)],
    openDirs := [(['1'], ⟨strL "/a", false⟩)] }

/-- Witness for C7: listing "/a" under upload dir "/a/b" emits one segment
(the next step "b"), and the second listing answers end-of-stream. -/
theorem c7_readdir_virtual_witness :
    (∃ seg rest,
      (readdirRespond c7svr (.ok []) (.ok []) ['1']).2 = .nameListR [seg]
      ∧ seg.contains '/' = false
      ∧ c7svr.uploadPath =
          (if strL "/a" = ['/'] then ['/'] else strL "/a" ++ ['/']) ++ seg ++ rest
      ∧ (rest = [] ∨ ∃ r2, rest = '/' :: r2))
    ∧ (readdirRespond (readdirRespond c7svr (.ok []) (.ok []) ['1']).1
        (.ok []) (.ok []) ['1']).2 = sendError (some .ioEOF) := by
  have h := c7_readdir_virtual c7svr (.ok []) (.ok []) ['1']
    ⟨strL "/dev/null", []⟩ ⟨strL "/a", false⟩ rfl rfl rfl rfl
    (by decide) (by decide)
  exact ⟨(h.1 rfl).1, (h.1 rfl).2.2.1⟩
